import Mathlib

/-!
# Verification of the ToDo-front client sync engine

Shallow embedding of the state-synchronization core of the repository:
the delta-merge (`applySyncData`), the sync trigger (`syncTasks`), the
sync checkpoint storage (`SyncStorage`), the WebSocket client's
reconnection backoff and pending-room logic, the API client's request
gating and update mutation, and the logout teardown.

All definitions are translated from the TypeScript sources
(`src/store/index.ts`, `src/lib/websocket.ts`, `src/lib/api.ts`,
`src/lib/sync-storage.ts`, `src/lib/session-manager.ts`,
`src/lib/error-handler.ts`).

Everything lives in the `ToDoFront` namespace so that the source's own
names (`Task`, `SyncResponse`, ...) can be kept without clashing with
the Lean core library.
-/

namespace ToDoFront

/-! ## Data model

`Task` mirrors the repository's task record; only the fields relevant to
the merge algorithm are kept: the identity (`id`) and a payload that
stands for all remaining fields (`title`, `version`), so that two
records with the same id can still differ. -/

structure Task where
  id : String
  title : String
  version : Nat
deriving DecidableEq, Repr

/-- The elements of `SyncResponse.deletedTasks`: objects carrying the id
of a deleted task (`deletedTask.id` in the source). -/
structure DeletedTask where
  id : String
deriving DecidableEq, Repr

/-- The merge-relevant part of the `/sync` response:
`{ updatedTasks, deletedTasks }`. -/
structure SyncResponse where
  updatedTasks : List Task
  deletedTasks : List DeletedTask
deriving DecidableEq, Repr

/-! ## applySyncData (src/store/index.ts lines 1582-1605)

```ts
applySyncData: (syncData: SyncResponse) => {
  set((state) => {
    let updatedTasks = [...state.tasks];
    // Update existing tasks or add new ones
    syncData.updatedTasks.forEach(updatedTask => {
      const existingIndex = updatedTasks.findIndex(task => task.id === updatedTask.id);
      if (existingIndex >= 0) { updatedTasks[existingIndex] = updatedTask; }
      else { updatedTasks.push(updatedTask); }
    });
    // Remove deleted tasks
    syncData.deletedTasks.forEach(deletedTask => {
      updatedTasks = updatedTasks.filter(task => task.id !== deletedTask.id);
    });
    return { tasks: updatedTasks };
  });
}
```
-/

/-- One step of the upsert loop: replace the first task with the same id
(`findIndex` + in-place assignment), otherwise append at the end
(`push`). -/
def upsertOne : List Task → Task → List Task
  | [], u => [u]
  | t :: ts, u => if t.id = u.id then u :: ts else t :: upsertOne ts u

/-- The `syncData.updatedTasks.forEach(...)` loop. -/
def applyUpserts (tasks : List Task) (ups : List Task) : List Task :=
  ups.foldl upsertOne tasks

/-- The `syncData.deletedTasks.forEach(...)` loop: repeated
`filter(task => task.id !== deletedTask.id)`. -/
def applyDeletes (tasks : List Task) (dels : List DeletedTask) : List Task :=
  dels.foldl (fun acc d => acc.filter (fun t => t.id != d.id)) tasks

/-- `applySyncData`: the upsert loop runs first, the deletion loop runs
second, exactly as in the source. -/
def applySyncData (tasks : List Task) (syncData : SyncResponse) : List Task :=
  applyDeletes (applyUpserts tasks syncData.updatedTasks) syncData.deletedTasks

/-- Modelled from the spec: the merge order the specification describes
("apply deletions first within the response, then upserts").  Defined
only to compare with `applySyncData`, which is translated from the
source. -/
def applySyncDataSpecOrder (tasks : List Task) (syncData : SyncResponse) : List Task :=
  applyUpserts (applyDeletes tasks syncData.deletedTasks) syncData.updatedTasks

/-! ### Characterization of the deletion pass -/

/-- A task id survives the deletion loop iff it differs from every id in
`deletedTasks`. -/
def keptByDeletes (dels : List DeletedTask) (i : String) : Bool :=
  dels.all (fun d => i != d.id)

theorem applyDeletes_eq_filter (tasks : List Task) (dels : List DeletedTask) :
    applyDeletes tasks dels = tasks.filter (fun t => keptByDeletes dels t.id) := by
  induction dels generalizing tasks with
  | nil => simp [applyDeletes, keptByDeletes]
  | cons d ds ih =>
    simp only [applyDeletes, List.foldl_cons] at *
    rw [ih, List.filter_filter]
    congr 1
    funext t
    simp [keptByDeletes, Bool.and_comm]

theorem mem_applyDeletes {t : Task} {tasks : List Task} {dels : List DeletedTask} :
    t ∈ applyDeletes tasks dels ↔ t ∈ tasks ∧ keptByDeletes dels t.id = true := by
  rw [applyDeletes_eq_filter, List.mem_filter]

theorem not_kept_of_mem_deletes {dels : List DeletedTask} {d : DeletedTask}
    (hd : d ∈ dels) : keptByDeletes dels d.id = false := by
  simp only [keptByDeletes, List.all_eq_false]
  exact ⟨d, hd, by simp⟩

/-! ### Characterization of the upsert pass

Proof infrastructure: `findById t i` returns the first task in `t`
whose id is `i` (the record `findIndex` would select), `containsId`
its decidable existence. -/

def findById : List Task → String → Option Task
  | [], _ => none
  | t :: ts, i => if t.id = i then some t else findById ts i

def containsId (t : List Task) (i : String) : Bool :=
  (findById t i).isSome

theorem findById_upsertOne_self (t : List Task) (z : Task) :
    findById (upsertOne t z) z.id = some z := by
  induction t with
  | nil => simp [upsertOne, findById]
  | cons x xs ih =>
    by_cases hx : x.id = z.id
    · simp [upsertOne, hx, findById]
    · simp [upsertOne, hx, findById, ih]

theorem upsertOne_cons_eq {x : Task} (xs : List Task) {z : Task} (h : x.id = z.id) :
    upsertOne (x :: xs) z = z :: xs := by
  simp [upsertOne, h]

theorem upsertOne_cons_ne {x : Task} (xs : List Task) {z : Task} (h : x.id ≠ z.id) :
    upsertOne (x :: xs) z = x :: upsertOne xs z := by
  simp [upsertOne, h]

theorem findById_upsertOne_ne (t : List Task) (z : Task) (i : String) (h : z.id ≠ i) :
    findById (upsertOne t z) i = findById t i := by
  induction t with
  | nil => simp [upsertOne, findById, h]
  | cons x xs ih =>
    by_cases hx : x.id = z.id
    · have hxi : x.id ≠ i := by rw [hx]; exact h
      rw [upsertOne_cons_eq xs hx]
      simp [findById, h, hxi]
    · rw [upsertOne_cons_ne xs hx]
      by_cases hxi : x.id = i
      · simp [findById, hxi]
      · simp [findById, hxi, ih]

theorem containsId_upsertOne (t : List Task) (z : Task) (i : String) :
    containsId (upsertOne t z) i = ((z.id = i : Bool) || containsId t i) := by
  by_cases h : z.id = i
  · subst h
    simp [containsId, findById_upsertOne_self]
  · simp [containsId, findById_upsertOne_ne t z i h, h]

theorem applyUpserts_nil (t : List Task) : applyUpserts t [] = t := rfl

theorem applyUpserts_cons (t : List Task) (z : Task) (u : List Task) :
    applyUpserts t (z :: u) = applyUpserts (upsertOne t z) u := rfl

theorem containsId_applyUpserts (t : List Task) (u : List Task) (i : String)
    (h : containsId t i = true) : containsId (applyUpserts t u) i = true := by
  induction u generalizing t with
  | nil => exact h
  | cons z u1 ih =>
    rw [applyUpserts_cons]
    exact ih _ (by rw [containsId_upsertOne, h, Bool.or_true])

/-- If the first occurrence of `z.id` already holds exactly `z`, the
upsert is a no-op. -/
theorem upsertOne_eq_self (t : List Task) (z : Task)
    (h : findById t z.id = some z) : upsertOne t z = t := by
  induction t with
  | nil => simp [findById] at h
  | cons x xs ih =>
    by_cases hx : x.id = z.id
    · simp only [findById, hx, if_true, Option.some.injEq] at h
      simp [upsertOne, hx, h]
    · simp only [findById, hx, if_false] at h
      simp [upsertOne, hx, ih h]

/-- Upserting twice with the same id collapses to the last upsert: both
target the same first occurrence (or the same appended slot). -/
theorem upsertOne_upsertOne_same (t : List Task) {z w : Task} (h : z.id = w.id) :
    upsertOne (upsertOne t z) w = upsertOne t w := by
  induction t with
  | nil => simp [upsertOne, h]
  | cons x xs ih =>
    by_cases hx : x.id = z.id
    · have hxw : x.id = w.id := hx.trans h
      simp [upsertOne, hx, hxw, h]
    · have hxw : x.id ≠ w.id := fun hc => hx (hc.trans h.symm)
      simp [upsertOne, hx, hxw, ih]

/-- Upserts with different ids commute, provided the first id already
occurs (so that neither order appends both records). -/
theorem upsertOne_comm (t : List Task) {z w : Task}
    (hz : containsId t z.id = true) (hne : z.id ≠ w.id) :
    upsertOne (upsertOne t z) w = upsertOne (upsertOne t w) z := by
  have hne1 : w.id ≠ z.id := Ne.symm hne
  induction t with
  | nil => simp [containsId, findById] at hz
  | cons x xs ih =>
    by_cases hxz : x.id = z.id
    · have hxw : x.id ≠ w.id := by rw [hxz]; exact hne
      rw [upsertOne_cons_eq xs hxz, upsertOne_cons_ne xs hne,
        upsertOne_cons_ne xs hxw, upsertOne_cons_eq (upsertOne xs w) hxz]
    · by_cases hxw : x.id = w.id
      · rw [upsertOne_cons_ne xs hxz, upsertOne_cons_eq (upsertOne xs z) hxw,
          upsertOne_cons_eq xs hxw, upsertOne_cons_ne xs hne1]
      · have hz1 : containsId xs z.id = true := by
          simpa [containsId, findById, hxz] using hz
        rw [upsertOne_cons_ne xs hxz, upsertOne_cons_ne (upsertOne xs z) hxw,
          upsertOne_cons_ne xs hxw, upsertOne_cons_ne (upsertOne xs w) hxz, ih hz1]

theorem findById_applyUpserts_of_absent (t : List Task) (u : List Task) (i : String)
    (h : ∀ w ∈ u, w.id ≠ i) : findById (applyUpserts t u) i = findById t i := by
  induction u generalizing t with
  | nil => rfl
  | cons z u1 ih =>
    rw [applyUpserts_cons, ih _ fun w hw => h w (List.mem_cons_of_mem _ hw),
      findById_upsertOne_ne t z i (h z (List.mem_cons_self _ _))]

/-- If some later record of `u` carries the same id as `z`, the earlier
upsert of `z` is absorbed (it only matters that the id is present). -/
theorem applyUpserts_absorb (u : List Task) (t : List Task) (z : Task)
    (hz : containsId t z.id = true) (hu : ∃ w ∈ u, w.id = z.id) :
    applyUpserts (upsertOne t z) u = applyUpserts t u := by
  induction u generalizing t with
  | nil => simp at hu
  | cons w u1 ih =>
    rw [applyUpserts_cons, applyUpserts_cons]
    by_cases hwz : w.id = z.id
    · rw [upsertOne_upsertOne_same t hwz.symm]
    · obtain ⟨w1, hw1, hid⟩ := hu
      rcases List.mem_cons.mp hw1 with h | h
      · exact absurd (h ▸ hid) hwz
      · rw [upsertOne_comm t hz (Ne.symm hwz)]
        exact ih (upsertOne t w)
          (by rw [containsId_upsertOne, hz, Bool.or_true]) ⟨w1, h, hid⟩

/-- Replaying the whole upsert list is a no-op. -/
theorem applyUpserts_idem (u : List Task) (t : List Task) :
    applyUpserts (applyUpserts t u) u = applyUpserts t u := by
  induction u generalizing t with
  | nil => rfl
  | cons z u1 ih =>
    rw [applyUpserts_cons, applyUpserts_cons]
    by_cases hz : ∃ w ∈ u1, w.id = z.id
    · rw [applyUpserts_absorb u1 _ z
        (containsId_applyUpserts _ u1 z.id
          (by rw [containsId_upsertOne]; simp)) hz]
      exact ih (upsertOne t z)
    · push_neg at hz
      rw [upsertOne_eq_self _ z
        (by rw [findById_applyUpserts_of_absent _ u1 z.id hz,
          findById_upsertOne_self])]
      exact ih (upsertOne t z)

/-! ### Commuting the deletion pass with the upsert pass -/

theorem applyDeletes_nil (t : List Task) : applyDeletes t [] = t := rfl

/-- An upsert whose id is deleted afterwards vanishes under the
deletion filter. -/
theorem filter_upsertOne_of_deleted (t : List Task) (z : Task) (q : String → Bool)
    (hq : q z.id = false) :
    (upsertOne t z).filter (fun x => q x.id) = t.filter (fun x => q x.id) := by
  induction t with
  | nil => simp [upsertOne, hq]
  | cons x xs ih =>
    by_cases hx : x.id = z.id
    · have hqx : q x.id = false := by rw [hx]; exact hq
      rw [upsertOne_cons_eq xs hx]
      simp [List.filter_cons, hq, hqx]
    · rw [upsertOne_cons_ne xs hx]
      simp only [List.filter_cons]
      cases q x.id <;> simp [ih]

/-- An upsert whose id survives the deletion filter commutes with it. -/
theorem filter_upsertOne_of_kept (t : List Task) (z : Task) (q : String → Bool)
    (hq : q z.id = true) :
    (upsertOne t z).filter (fun x => q x.id) = upsertOne (t.filter (fun x => q x.id)) z := by
  induction t with
  | nil => simp [upsertOne, hq]
  | cons x xs ih =>
    by_cases hx : x.id = z.id
    · have hqx : q x.id = true := by rw [hx]; exact hq
      rw [upsertOne_cons_eq xs hx]
      simp [List.filter_cons, hq, hqx, upsertOne_cons_eq _ hx]
    · rw [upsertOne_cons_ne xs hx]
      simp only [List.filter_cons]
      by_cases hqx : q x.id = true
      · simp [hqx, ih, upsertOne_cons_ne _ hx]
      · simp only [Bool.not_eq_true] at hqx
        simp [hqx, ih]

/-- Running the deletion pass after the upsert pass equals deleting
first and then upserting only the records whose id survives. -/
theorem applyDeletes_applyUpserts (u : List Task) (t : List Task) (dels : List DeletedTask) :
    applyDeletes (applyUpserts t u) dels
      = applyUpserts (applyDeletes t dels)
          (u.filter (fun z => keptByDeletes dels z.id)) := by
  induction u generalizing t with
  | nil => rfl
  | cons z u1 ih =>
    rw [applyUpserts_cons, ih (upsertOne t z), List.filter_cons]
    by_cases hz : keptByDeletes dels z.id = true
    · rw [applyDeletes_eq_filter (upsertOne t z) dels,
        filter_upsertOne_of_kept t z _ hz, ← applyDeletes_eq_filter]
      simp [hz, applyUpserts_cons]
    · simp only [Bool.not_eq_true] at hz
      rw [applyDeletes_eq_filter (upsertOne t z) dels,
        filter_upsertOne_of_deleted t z _ hz, ← applyDeletes_eq_filter]
      simp [hz]

/-- The deletion pass is idempotent. -/
theorem applyDeletes_idem (t : List Task) (dels : List DeletedTask) :
    applyDeletes (applyDeletes t dels) dels = applyDeletes t dels := by
  rw [applyDeletes_eq_filter t dels, applyDeletes_eq_filter _ dels,
    List.filter_filter]
  congr 1
  funext x
  rw [Bool.and_self]

/-- `applySyncData` rewritten as: delete first, then upsert the
surviving records.  This is the engine of the idempotence proof. -/
theorem applySyncData_eq_deletes_first (tasks : List Task) (r : SyncResponse) :
    applySyncData tasks r
      = applyUpserts (applyDeletes tasks r.deletedTasks)
          (r.updatedTasks.filter (fun z => keptByDeletes r.deletedTasks z.id)) :=
  applyDeletes_applyUpserts r.updatedTasks tasks r.deletedTasks

/-- Small sanity check on concrete data: upsert of a fresh id appends,
deletion removes. -/
example :
    applySyncData [⟨"b", "old", 1⟩]
      ⟨[⟨"a", "new", 2⟩], [⟨"b"⟩]⟩ = [⟨"a", "new", 2⟩] := by decide

/-- Sanity check: an id present in both lists ends up absent. -/
example :
    applySyncData [] ⟨[⟨"a", "x", 1⟩], [⟨"a"⟩]⟩ = [] := by decide

/-- Sanity check: in the spec's order the same response resurrects the
record. -/
example :
    applySyncDataSpecOrder [] ⟨[⟨"a", "x", 1⟩], [⟨"a"⟩]⟩ = [⟨"a", "x", 1⟩] := by decide

theorem filter_kept_idem (u : List Task) (dels : List DeletedTask) :
    (u.filter (fun z => keptByDeletes dels z.id)).filter
        (fun z => keptByDeletes dels z.id)
      = u.filter (fun z => keptByDeletes dels z.id) := by
  rw [List.filter_filter]
  congr 1
  funext z
  rw [Bool.and_self]

/-- C1 (counterexample).  The claim says `applySyncData` removes every
id of `deletedTasks` before any `updatedTasks` record is inserted; in
the code the upsert loop runs first and the deletion loop second.  On
the empty collection and the response
`{updatedTasks: [a], deletedTasks: [a]}` the deletions-first order
would re-insert the record after its deletion and yield `[a]`, but the
code yields `[]`. -/
theorem applySyncData_not_deletions_first :
    applySyncData [] ⟨[⟨"a", "x", 1⟩], [⟨"a"⟩]⟩ = [] ∧
      applySyncDataSpecOrder [] ⟨[⟨"a", "x", 1⟩], [⟨"a"⟩]⟩ = [⟨"a", "x", 1⟩] ∧
      applySyncData [] ⟨[⟨"a", "x", 1⟩], [⟨"a"⟩]⟩
        ≠ applySyncDataSpecOrder [] ⟨[⟨"a", "x", 1⟩], [⟨"a"⟩]⟩ := by
  decide

/-- C1 (amended).  `applySyncData` merges the response's upserts first
and applies its deletions second: the collection returned is the
deletion pass run on the post-upsert collection, and consequently every
id listed in `deletedTasks` is absent from the final collection. -/
theorem applySyncData_deletions_applied_last (tasks : List Task) (r : SyncResponse)
    (d : DeletedTask) (hd : d ∈ r.deletedTasks) :
    applySyncData tasks r
        = applyDeletes (applyUpserts tasks r.updatedTasks) r.deletedTasks ∧
      ∀ t ∈ applySyncData tasks r, t.id ≠ d.id := by
  refine ⟨rfl, fun t ht hc => ?_⟩
  have hk := (mem_applyDeletes.mp ht).2
  rw [hc, not_kept_of_mem_deletes hd] at hk
  exact Bool.false_ne_true hk

/-- C1 (witness for the amended theorem): concrete instance with
`tasks = [b-old]`, `updatedTasks = [a-new]`, `deletedTasks = [b]`. -/
theorem applySyncData_deletions_applied_last_witness :
    applySyncData [⟨"b", "old", 1⟩] ⟨[⟨"a", "new", 2⟩], [⟨"b"⟩]⟩
        = applyDeletes (applyUpserts [⟨"b", "old", 1⟩] [⟨"a", "new", 2⟩]) [⟨"b"⟩] ∧
      ∀ t ∈ applySyncData [⟨"b", "old", 1⟩] ⟨[⟨"a", "new", 2⟩], [⟨"b"⟩]⟩,
        t.id ≠ (⟨"b"⟩ : DeletedTask).id :=
  applySyncData_deletions_applied_last [⟨"b", "old", 1⟩]
    ⟨[⟨"a", "new", 2⟩], [⟨"b"⟩]⟩ ⟨"b"⟩ (by decide)

/-- C3.  Applying the same sync response twice in a row yields exactly
the collection obtained by applying it once: the merge is idempotent,
for every starting collection and every response. -/
theorem applySyncData_idempotent (tasks : List Task) (r : SyncResponse) :
    applySyncData (applySyncData tasks r) r = applySyncData tasks r := by
  have key := applySyncData_eq_deletes_first tasks r
  rw [applySyncData_eq_deletes_first (applySyncData tasks r) r]
  have hdel : applyDeletes (applySyncData tasks r) r.deletedTasks
      = applySyncData tasks r := by
    rw [key, applyDeletes_applyUpserts, applyDeletes_idem, filter_kept_idem]
  rw [hdel, key, applyUpserts_idem]

/-- C3 (witness): concrete instance of the idempotence theorem. -/
theorem applySyncData_idempotent_witness :
    applySyncData (applySyncData [⟨"b", "old", 1⟩] ⟨[⟨"a", "new", 2⟩], [⟨"b"⟩]⟩)
        ⟨[⟨"a", "new", 2⟩], [⟨"b"⟩]⟩
      = applySyncData [⟨"b", "old", 1⟩] ⟨[⟨"a", "new", 2⟩], [⟨"b"⟩]⟩ :=
  applySyncData_idempotent [⟨"b", "old", 1⟩] ⟨[⟨"a", "new", 2⟩], [⟨"b"⟩]⟩

/-- C4.  If an id `X` occurs both in `updatedTasks` and in
`deletedTasks` of one response, the merged collection contains no task
with id `X`: the deletion wins over the upsert of the same id. -/
theorem applySyncData_deletion_wins (tasks : List Task) (r : SyncResponse) (X : String)
    (_hu : ∃ z ∈ r.updatedTasks, z.id = X) (hd : ∃ d ∈ r.deletedTasks, d.id = X) :
    ∀ t ∈ applySyncData tasks r, t.id ≠ X := by
  obtain ⟨d, hdmem, hdid⟩ := hd
  intro t ht hc
  have hk := (mem_applyDeletes.mp ht).2
  rw [hc, ← hdid, not_kept_of_mem_deletes hdmem] at hk
  exact Bool.false_ne_true hk

/-- C4 (witness): the id `"a"` is both upserted and deleted in one
response; no task with id `"a"` remains. -/
theorem applySyncData_deletion_wins_witness :
    (∃ z ∈ [Task.mk "a" "new" 2], z.id = "a") ∧
      (∃ d ∈ [DeletedTask.mk "a"], d.id = "a") ∧
      ∀ t ∈ applySyncData [⟨"a", "old", 1⟩] ⟨[⟨"a", "new", 2⟩], [⟨"a"⟩]⟩,
        t.id ≠ "a" :=
  ⟨by decide, by decide,
    applySyncData_deletion_wins [⟨"a", "old", 1⟩] ⟨[⟨"a", "new", 2⟩], [⟨"a"⟩]⟩ "a"
      (by decide) (by decide)⟩

/-! ## syncTasks and the checkpoint (src/store/index.ts lines 1560-1580,
SyncStorage in src/lib/sync-storage.ts)

```ts
syncTasks: async (since?: string) => {
  try {
    const syncSince = since || SyncStorage.getInitialSyncTimestamp();
    const response = await apiClient.sync(syncSince);
    if (response.data) {
      // Save new timestamp
      SyncStorage.setLastSyncTimestamp(response.data.currentTimestamp);
      // Update tasks
      get().applySyncData(response.data);
      return true;
    } else {
      set({ error: response.error?.message || 'Task sync error' });
      return false;
    }
  } catch {
    set({ error: 'Network error during task sync' });
    return false;
  }
}
```
-/

/-- JavaScript `a || b` on strings: the empty string is falsy. -/
def jsOrString (a : Option String) (b : String) : String :=
  match a with
  | some s => if s = "" then b else s
  | none => b

/-- `SyncStorage.getInitialSyncTimestamp`: the stored checkpoint if
present, otherwise "now minus one hour" (the bounded lookback). -/
def getInitialSyncTimestamp (stored : Option String) (oneHourAgo : String) : String :=
  stored.getD oneHourAgo

/-- The `since` value the delta fetch is called with:
`since || SyncStorage.getInitialSyncTimestamp()`. -/
def syncSince (since : Option String) (stored : Option String) (oneHourAgo : String) : String :=
  jsOrString since (getInitialSyncTimestamp stored oneHourAgo)

/-- The three outcomes `syncTasks` distinguishes: `response.data`
present, `response.data` absent (error response), and a thrown
exception. -/
inductive SyncFetch where
  | success (updatedTasks : List Task) (deletedTasks : List DeletedTask)
      (currentTimestamp : String)
  | failure (message : Option String)
  | thrown
deriving DecidableEq, Repr

/-- The mutable state `syncTasks` touches: the task collection, the
persisted checkpoint (`SyncStorage` key `lastSyncTimestamp`), and the
store's error field. -/
structure SyncState where
  tasks : List Task
  lastSyncTimestamp : Option String
  error : Option String
deriving DecidableEq, Repr

/-- Observable side effects of one `syncTasks` call, in execution
order. -/
inductive SyncEvent where
  | checkpointWrite (ts : String)
  | mergeApply
  | errorSet (msg : String)
deriving DecidableEq, Repr

def isCheckpointWrite : SyncEvent → Bool
  | .checkpointWrite _ => true
  | _ => false

def isMergeApply : SyncEvent → Bool
  | .mergeApply => true
  | _ => false

/-- One `syncTasks` call: the state transition, the emitted side-effect
trace, and the returned boolean.  On success the source writes the
checkpoint (`SyncStorage.setLastSyncTimestamp`) and then merges
(`applySyncData`), in that order. -/
def syncTasks (st : SyncState) (fetch : SyncFetch) :
    SyncState × List SyncEvent × Bool :=
  match fetch with
  | .success ups dels ts =>
      ({ tasks := applySyncData st.tasks ⟨ups, dels⟩,
         lastSyncTimestamp := some ts,
         error := st.error },
       [.checkpointWrite ts, .mergeApply], true)
  | .failure msg =>
      ({ st with error := some (jsOrString msg "Task sync error") },
       [.errorSet (jsOrString msg "Task sync error")], false)
  | .thrown =>
      ({ st with error := some "Network error during task sync" },
       [.errorSet "Network error during task sync"], false)

/-- C2 (counterexample).  The claim says the checkpoint is advanced
only after the merge has completed.  On a successful fetch the source
writes the checkpoint first and merges second: in the emitted trace the
checkpoint write (index 0) precedes the merge (index 1). -/
theorem syncTasks_checkpoint_written_before_merge :
    (syncTasks ⟨[], some "T0", none⟩ (.success [⟨"a", "x", 1⟩] [] "T1")).2.1
        = [.checkpointWrite "T1", .mergeApply] ∧
      ¬ ((syncTasks ⟨[], some "T0", none⟩
            (.success [⟨"a", "x", 1⟩] [] "T1")).2.1.findIdx isMergeApply
          < (syncTasks ⟨[], some "T0", none⟩
            (.success [⟨"a", "x", 1⟩] [] "T1")).2.1.findIdx isCheckpointWrite) := by
  decide

/-- C2 (amended).  On a successful delta fetch the checkpoint is
advanced to the response's `currentTimestamp` immediately before the
merge (write precedes merge in the trace); on any failure (error
response or thrown exception) the checkpoint and the collection are
left unchanged, no checkpoint write is emitted, and the next call
resolves the same `since` value. -/
theorem syncTasks_checkpoint_discipline (st : SyncState) (fetch : SyncFetch) :
    (∀ ups dels ts, fetch = .success ups dels ts →
        (syncTasks st fetch).1.lastSyncTimestamp = some ts ∧
          (syncTasks st fetch).1.tasks = applySyncData st.tasks ⟨ups, dels⟩ ∧
          (syncTasks st fetch).2.1.findIdx isCheckpointWrite
            < (syncTasks st fetch).2.1.findIdx isMergeApply) ∧
      ((∀ ups dels ts, fetch ≠ .success ups dels ts) →
        (syncTasks st fetch).1.lastSyncTimestamp = st.lastSyncTimestamp ∧
          (syncTasks st fetch).1.tasks = st.tasks ∧
          (∀ e ∈ (syncTasks st fetch).2.1, isCheckpointWrite e = false) ∧
          ∀ fallback,
            syncSince none (syncTasks st fetch).1.lastSyncTimestamp fallback
              = syncSince none st.lastSyncTimestamp fallback) := by
  cases fetch with
  | success ups dels ts =>
    refine ⟨fun u d t h => ?_, fun h => absurd rfl (h ups dels ts)⟩
    cases h
    exact ⟨rfl, rfl, by simp [syncTasks, List.findIdx, List.findIdx.go,
      isCheckpointWrite, isMergeApply]⟩
  | failure msg =>
    exact ⟨fun u d t h => SyncFetch.noConfusion h,
      fun _ => ⟨rfl, rfl, by simp [syncTasks, isCheckpointWrite], fun _ => rfl⟩⟩
  | thrown =>
    exact ⟨fun u d t h => SyncFetch.noConfusion h,
      fun _ => ⟨rfl, rfl, by simp [syncTasks, isCheckpointWrite], fun _ => rfl⟩⟩

/-- C2 (witness): a failed fetch leaves a concrete stored checkpoint
`"T0"` untouched. -/
theorem syncTasks_checkpoint_discipline_witness :
    (syncTasks ⟨[], some "T0", none⟩ (.failure none)).1.lastSyncTimestamp
      = some "T0" :=
  (((syncTasks_checkpoint_discipline ⟨[], some "T0", none⟩ (.failure none)).2
    (fun _ _ _ h => SyncFetch.noConfusion h)).1)

/-! ## WebSocket client (src/lib/websocket.ts)

Reconnection backoff (lines 199-215):
```ts
private attemptReconnect() {
  if (this.reconnectAttempts >= this.config.maxReconnectAttempts) { return; }
  if (this.reconnectTimeout) { clearTimeout(this.reconnectTimeout); }
  const delay = this.config.reconnectDelay * Math.pow(2, this.reconnectAttempts);
  this.reconnectAttempts++;
  this.reconnectTimeout = setTimeout(() => { this.connect(); }, delay);
}
```
-/

structure WebSocketConfig where
  timeout : Nat
  maxReconnectAttempts : Nat
  reconnectDelay : Nat
deriving DecidableEq, Repr

/-- The constructor defaults: `maxReconnectAttempts: 5`,
`reconnectDelay: 1000`. -/
def defaultWebSocketConfig : WebSocketConfig :=
  { timeout := 10000, maxReconnectAttempts := 5, reconnectDelay := 1000 }

/-- `attemptReconnect`, as a function of the current attempt counter:
returns `none` when the maximum is reached (no retry scheduled),
otherwise the scheduled delay together with the incremented counter. -/
def attemptReconnect (cfg : WebSocketConfig) (reconnectAttempts : Nat) :
    Option (Nat × Nat) :=
  if cfg.maxReconnectAttempts ≤ reconnectAttempts then none
  else some (cfg.reconnectDelay * 2 ^ reconnectAttempts, reconnectAttempts + 1)

/-- C6.  On the n-th consecutive reconnection attempt (1-based, so the
counter reads `n - 1`), the scheduled delay is exactly
`reconnectDelay * 2 ^ (n - 1)`; it never exceeds the maximum value
`reconnectDelay * 2 ^ (maxReconnectAttempts - 1)`; and once the counter
has reached `maxReconnectAttempts` no further reconnection is
scheduled. -/
theorem attemptReconnect_backoff (cfg : WebSocketConfig) (n : Nat)
    (h1 : 1 ≤ n) (h2 : n ≤ cfg.maxReconnectAttempts) :
    attemptReconnect cfg (n - 1)
        = some (cfg.reconnectDelay * 2 ^ (n - 1), n) ∧
      cfg.reconnectDelay * 2 ^ (n - 1)
        ≤ cfg.reconnectDelay * 2 ^ (cfg.maxReconnectAttempts - 1) ∧
      ∀ a, cfg.maxReconnectAttempts ≤ a → attemptReconnect cfg a = none := by
  refine ⟨?_, ?_, fun a ha => if_pos ha⟩
  · have hlt : n - 1 < cfg.maxReconnectAttempts :=
      lt_of_lt_of_le (Nat.sub_lt h1 Nat.one_pos) h2
    rw [attemptReconnect, if_neg (not_le_of_lt hlt), Nat.sub_add_cancel h1]
  · exact Nat.mul_le_mul_left _
      (Nat.pow_le_pow_right (by norm_num) (Nat.sub_le_sub_right h2 1))

/-- C6 (witness): with the constructor defaults, the second attempt is
scheduled after `1000 * 2 = 2000` ms. -/
theorem attemptReconnect_backoff_witness :
    attemptReconnect defaultWebSocketConfig 1
      = some (defaultWebSocketConfig.reconnectDelay * 2 ^ 1, 2) :=
  (attemptReconnect_backoff defaultWebSocketConfig 2 (by decide) (by decide)).1

/-! ### Pending user room (lines 29, 112-122, 274-288)

```ts
joinUserRoom(userId: string): void {
  if (!userId) { return; }
  const roomName = `user:${userId}`;
  if (this.isConnected()) { this.socket?.emit('join', roomName); }
  else { this.pendingUserRoom = roomName; }
}
```
and in the `connect` handler:
```ts
this.reconnectAttempts = 0;
this.startHeartbeat();
this.joinDefaultRooms();            // emits join board:all, global:all
if (this.pendingUserRoom) {
  this.socket?.emit('join', this.pendingUserRoom);
  this.pendingUserRoom = null;
}
```
-/

/-- The WebSocket client state relevant to room membership: connection
flag, the single pending per-identity room slot, the reconnection
counter, and the sequence of `join` emissions so far. -/
structure WSClientState where
  connected : Bool
  pendingUserRoom : Option String
  reconnectAttempts : Nat
  joined : List String
deriving DecidableEq, Repr

def joinUserRoom (st : WSClientState) (userId : String) : WSClientState :=
  if userId = "" then st
  else if st.connected then
    { st with joined := st.joined ++ ["user:" ++ userId] }
  else
    { st with pendingUserRoom := some ("user:" ++ userId) }

/-- The `connect` event handler: counter reset, default rooms joined,
then the pending user room (if any) joined and the slot cleared. -/
def onConnect (st : WSClientState) : WSClientState :=
  let st1 : WSClientState :=
    { connected := true
      pendingUserRoom := st.pendingUserRoom
      reconnectAttempts := 0
      joined := st.joined ++ ["board:all", "global:all"] }
  match st1.pendingUserRoom with
  | some room => { st1 with joined := st1.joined ++ [room], pendingUserRoom := none }
  | none => st1

theorem foldl_joinUserRoom_disconnected (ids : List String) (l : String)
    (st : WSClientState) (hconn : st.connected = false)
    (hne : ∀ i ∈ ids, i ≠ "") (hl : l ≠ "") :
    (ids ++ [l]).foldl joinUserRoom st
      = { st with pendingUserRoom := some ("user:" ++ l) } := by
  induction ids generalizing st with
  | nil => simp [joinUserRoom, hl, hconn]
  | cons a rest ih =>
    have ha : a ≠ "" := hne a (List.mem_cons_self _ _)
    have hstep : joinUserRoom st a = { st with pendingUserRoom := some ("user:" ++ a) } := by
      simp [joinUserRoom, ha, hconn]
    rw [List.cons_append, List.foldl_cons, hstep]
    exact ih _ hconn fun i hi => hne i (List.mem_cons_of_mem _ hi)

/-- C9.  While disconnected, a sequence of `joinUserRoom` calls keeps
at most one pending room: each call overwrites the slot, no `join` is
emitted yet, and on the next successful connection exactly the most
recent user room is joined (after the default rooms) and the slot is
cleared. -/
theorem joinUserRoom_last_wins (st : WSClientState) (ids : List String) (l : String)
    (hconn : st.connected = false) (hne : ∀ i ∈ ids, i ≠ "") (hl : l ≠ "") :
    ((ids ++ [l]).foldl joinUserRoom st).pendingUserRoom = some ("user:" ++ l) ∧
      ((ids ++ [l]).foldl joinUserRoom st).joined = st.joined ∧
      (onConnect ((ids ++ [l]).foldl joinUserRoom st)).joined
        = st.joined ++ ["board:all", "global:all", "user:" ++ l] ∧
      (onConnect ((ids ++ [l]).foldl joinUserRoom st)).pendingUserRoom = none := by
  rw [foldl_joinUserRoom_disconnected ids l st hconn hne hl]
  refine ⟨rfl, rfl, ?_, rfl⟩
  simp [onConnect]

/-- C9 (witness): two rooms requested while disconnected; only
`user:u2` is pending and only it is joined on connect. -/
theorem joinUserRoom_last_wins_witness :
    ((["u1"] ++ ["u2"]).foldl joinUserRoom
        ⟨false, none, 0, []⟩).pendingUserRoom = some ("user:" ++ "u2") :=
  (joinUserRoom_last_wins ⟨false, none, 0, []⟩ ["u1"] "u2" rfl
    (by decide) (by decide)).1

/-! ## ApiClient.request (src/lib/api.ts lines 26-202)

```ts
private async request<T>(endpoint, options): Promise<ApiResponse<T>> {
  const isLoggingOut = authStore.getState().isLoggingOut;
  if (isLoggingOut) { return { data: undefined }; }
  ... fetch ...
  if (!response.ok) {
    if (response.status === 401) {
      if (endpoint.includes('/auth/me')) { return { data: undefined, error: undefined }; }
      if (endpoint.includes('/auth/login') || endpoint.includes('/auth/signup')) {
        return { error: { code: 401, ... } };
      }
      authStore.getState().logout();
      return { data: undefined, error: undefined };
    }
    if (response.status === 404) { return { error: { code: 404, ... } }; }
    return { error: { code: response.status, message: data.message || '...', ... } };
  }
  return { data };
} catch:
  'Failed to fetch'  -> { error: { code: 0, ..., requestId: 'network-error' } }
  AbortError         -> { error: { code: 408, ..., requestId: 'timeout-error' } }
  otherwise          -> { error: { code: 0, ..., requestId: 'network-error' } }
```
-/

structure ApiError where
  code : Nat
  message : String
  requestId : String
deriving DecidableEq, Repr

structure ApiResponse (α : Type) where
  data : Option α := none
  error : Option ApiError := none
deriving DecidableEq, Repr

/-- The endpoint classes the 401 branch of `request` distinguishes. -/
inductive Endpoint where
  | authMe
  | authLoginOrSignup
  | other
deriving DecidableEq, Repr

/-- What the network layer produced for one request. -/
inductive TransportResult (α : Type) where
  | ok (body : α)
  | httpError (status : Nat) (message : Option String) (requestId : Option String)
  | networkFailure
  | timeout
  | otherThrown
deriving DecidableEq, Repr

/-- The result of one `request` call: the response surfaced to the
caller, whether a fetch was performed at all, and whether a forced
logout was triggered (generic 401). -/
structure RequestOutcome (α : Type) where
  response : ApiResponse α
  fetched : Bool
  logoutTriggered : Bool
deriving DecidableEq, Repr

def request (α : Type) (isLoggingOut : Bool) (ep : Endpoint)
    (tr : TransportResult α) : RequestOutcome α :=
  if isLoggingOut then ⟨{ data := none, error := none }, false, false⟩
  else
    match tr with
    | .ok body => ⟨{ data := some body, error := none }, true, false⟩
    | .httpError 401 msg rid =>
      match ep with
      | .authMe => ⟨{ data := none, error := none }, true, false⟩
      | .authLoginOrSignup =>
          ⟨{ data := none,
             error := some ⟨401, jsOrString msg "פרטי התחברות שגויים",
               jsOrString rid "unknown"⟩ }, true, false⟩
      | .other => ⟨{ data := none, error := none }, true, true⟩
    | .httpError 404 _ rid =>
        ⟨{ data := none,
           error := some ⟨404, "המשאב המבוקש לא נמצא", jsOrString rid "unknown"⟩ },
         true, false⟩
    | .httpError s msg rid =>
        ⟨{ data := none,
           error := some ⟨s, jsOrString msg "שגיאה לא ידועה", jsOrString rid "unknown"⟩ },
         true, false⟩
    | .networkFailure =>
        ⟨{ data := none,
           error := some ⟨0, "השרת לא זמין כרגע - נסה שוב מאוחר יותר", "network-error"⟩ },
         true, false⟩
    | .timeout =>
        ⟨{ data := none,
           error := some ⟨408, "בקשה נכשלה - נסה שוב", "timeout-error"⟩ },
         true, false⟩
    | .otherThrown =>
        ⟨{ data := none,
           error := some ⟨0, "השרת לא זמין כרגע - נסה שוב מאוחר יותר", "network-error"⟩ },
         true, false⟩

/-- `ApiClient.updateTask` delegates to `request` on the `/tasks/{id}`
endpoint, which matches none of the auth-endpoint substrings. -/
def updateTaskRequest (isLoggingOut : Bool) (tr : TransportResult Task) :
    RequestOutcome Task :=
  request Task isLoggingOut .other tr

/-- `ApiClient.updateTask` header construction (lines 300-308):
`If-Match` is attached only when the `version` argument is truthy
(JavaScript: not `undefined` and not `0`). -/
def updateTaskHeaders (version : Option Nat) : List (String × String) :=
  let headers := [("Content-Type", "application/json")]
  match version with
  | some v => if v = 0 then headers else headers ++ [("If-Match", toString v)]
  | none => headers

/-- C8.  While `isLoggingOut` is set, `request` short-circuits: the
surfaced response carries neither data nor error, no fetch is
performed, and no forced logout is triggered — so both the success
check (`response.data` defined) and the error check (`response.error`
defined) fail for every task operation issued during logout. -/
theorem request_during_logout (α : Type) (ep : Endpoint) (tr : TransportResult α) :
    (request α true ep tr).response.data = none ∧
      (request α true ep tr).response.error = none ∧
      (request α true ep tr).fetched = false ∧
      (request α true ep tr).logoutTriggered = false :=
  ⟨rfl, rfl, rfl, rfl⟩

/-- C8 (witness): a network-level task request issued mid-logout. -/
theorem request_during_logout_witness :
    (request Task true .other .networkFailure).response.data = none ∧
      (request Task true .other .networkFailure).response.error = none ∧
      (request Task true .other .networkFailure).fetched = false ∧
      (request Task true .other .networkFailure).logoutTriggered = false :=
  request_during_logout Task .other .networkFailure

/-- C5.  A stale `expectedVersion` makes the server answer 409, and the
response surfaced to callers of `updateTask` then carries an error
object with code exactly 409 — while transport failures surface code 0
or 408 and validation failures code 400, so the conflict case is
branchable and never collapses into a generic failure. -/
theorem updateTask_conflict_distinguishable (msg rid : Option String) :
    ((updateTaskRequest false (.httpError 409 msg rid)).response.error.map
        (fun e => e.code) = some 409) ∧
      ((updateTaskRequest false (.httpError 409 msg rid)).response.data = none) ∧
      ((updateTaskRequest false .networkFailure).response.error.map
        (fun e => e.code) = some 0) ∧
      ((updateTaskRequest false .timeout).response.error.map
        (fun e => e.code) = some 408) ∧
      ((updateTaskRequest false .otherThrown).response.error.map
        (fun e => e.code) = some 0) ∧
      (∀ vmsg vrid, (updateTaskRequest false (.httpError 400 vmsg vrid)).response.error.map
        (fun e => e.code) = some 400) ∧
      ((409 : Nat) ≠ 0 ∧ (409 : Nat) ≠ 408 ∧ (409 : Nat) ≠ 400) := by
  refine ⟨rfl, rfl, rfl, rfl, rfl, fun vmsg vrid => rfl, by decide, by decide, by decide⟩

/-- C5 (witness): a 409 with no server message still surfaces code
409. -/
theorem updateTask_conflict_distinguishable_witness :
    (updateTaskRequest false (.httpError 409 none none)).response.error.map
      (fun e => e.code) = some 409 :=
  (updateTask_conflict_distinguishable none none).1

/-- C10.  The `If-Match` optimistic-concurrency header is attached only
for a truthy version: with `version` undefined or equal to `0` the
mutation is sent unguarded, and for any nonzero version the header
carries that version. -/
theorem updateTask_ifMatch_only_when_truthy :
    (∀ p ∈ updateTaskHeaders none, p.1 ≠ "If-Match") ∧
      (∀ p ∈ updateTaskHeaders (some 0), p.1 ≠ "If-Match") ∧
      ∀ v : Nat, v ≠ 0 → ("If-Match", toString v) ∈ updateTaskHeaders (some v) := by
  refine ⟨by decide, by decide, fun v hv => ?_⟩
  simp [updateTaskHeaders, hv]

/-- C10 (witness): version 3 produces the header `If-Match: 3`. -/
theorem updateTask_ifMatch_only_when_truthy_witness :
    ("If-Match", toString (3 : Nat)) ∈ updateTaskHeaders (some 3) :=
  updateTask_ifMatch_only_when_truthy.2.2 3 (by decide)

/-! ## logout teardown (src/store/index.ts lines 1069-1132)

```ts
logout: async () => {
  const currentUser = get().user;
  const currentState = get();
  if (currentState.isLoggingOut) { return; }
  set({ isLoggingOut: true });
  try {
    if (currentState.isAuthenticated || currentUser) {
      try { await apiClient.logout(); } catch \x7b /* ignored */ \x7d
    }
    if (currentUser) {
      ensureWebSocketInitialized().then((client) => {
        client.leaveUserRoom(currentUser.id);   // no-op when not connected
        client.disconnect();
      }).catch(() => {});
    }
    resetWebSocketClient();                     // cleanup -> disconnect
    get().clearSessionTimeout();
    smartSessionManager.cleanup();
    if (typeof window !== 'undefined') {
      localStorage.removeItem('lastSyncTimestamp');
    }
    set({ user: null, isAuthenticated: false, error: null,
          sessionTimeout: null, sessionExpiryTime: null, isLoggingOut: false });
  } catch { ...same resets... }
}
```

Ordering of the channel steps: `ensureWebSocketInitialized().then(cb)`
defers `cb` to a microtask, while `resetWebSocketClient()` runs
synchronously first and its `cleanup()` calls `disconnect()`, so by the
time `cb` runs the socket is no longer connected.  `leaveUserRoom`
starts with `if (!userId || !this.isConnected()) return;`
(websocket.ts line 291), so the user-room `leave` is never emitted
during logout; only the second `disconnect()` call still happens.  The
model below keeps `leaveUserRoom`'s guard, evaluated at the connection
state the callback actually observes (`false`).  Note also that no
statement of `logout` touches the task store's `tasks` array. -/

/-- The pending session timers: the auth store's `sessionTimeout` and
the `smartSessionManager`'s `checkTimeout` / `warningTimeout`. -/
structure SessionTimers where
  sessionTimeout : Option Nat
  checkTimeout : Option Nat
  warningTimeout : Option Nat
deriving DecidableEq, Repr

/-- The client state the logout sequence touches (auth store fields,
task collection, persisted checkpoint, timers, channel). -/
structure ClientState where
  user : Option String
  isAuthenticated : Bool
  isLoggingOut : Bool
  error : Option String
  tasks : List Task
  lastSyncTimestamp : Option String
  timers : SessionTimers
  wsConnected : Bool
deriving DecidableEq, Repr

inductive TeardownEvent where
  | apiLogout
  | leaveRoom (room : String)
  | wsDisconnect
  | wsReset
deriving DecidableEq, Repr

def logout (st : ClientState) : ClientState × List TeardownEvent :=
  if st.isLoggingOut then (st, [])
  else
    ({ user := none
       isAuthenticated := false
       isLoggingOut := false
       error := none
       tasks := st.tasks
       lastSyncTimestamp := none
       timers := ⟨none, none, none⟩
       wsConnected := false },
     (if st.isAuthenticated || st.user.isSome
        then [TeardownEvent.apiLogout] else [])
       ++ [TeardownEvent.wsReset]
       ++ (match st.user with
           | some uid =>
               -- the deferred callback: leaveUserRoom's isConnected()
               -- guard, evaluated after resetWebSocketClient has already
               -- disconnected the socket, then disconnect()
               (if (false : Bool)
                 then [TeardownEvent.leaveRoom ("user:" ++ uid)] else [])
                 ++ [TeardownEvent.wsDisconnect]
           | none => []))

/-- Modelled from the spec: the full teardown postcondition the claim
asserts, including "the local task collection is cleared". -/
def teardownCompleteClaim (st : ClientState)
    (res : ClientState × List TeardownEvent) : Prop :=
  (match st.user with
   | some uid => st.wsConnected = true →
       TeardownEvent.leaveRoom ("user:" ++ uid) ∈ res.2
   | none => True) ∧
    res.1.wsConnected = false ∧
    res.1.lastSyncTimestamp = none ∧
    res.1.timers = ⟨none, none, none⟩ ∧
    res.1.tasks = []

/-- A concrete authenticated state with one task in the collection. -/
def logoutSample : ClientState :=
  { user := some "u1"
    isAuthenticated := true
    isLoggingOut := false
    error := none
    tasks := [⟨"a", "x", 1⟩]
    lastSyncTimestamp := some "T0"
    timers := ⟨some 1, some 2, some 3⟩
    wsConnected := true }

/-- C7 (counterexample).  Logging out from `logoutSample` leaves the
task collection untouched (`[a]`) and emits no user-room `leave` at
all (the deferred callback finds the socket already disconnected), so
the claimed teardown postcondition — which includes leaving the
per-identity topic and clearing the local task collection — fails. -/
theorem logout_does_not_clear_tasks :
    (logout logoutSample).1.tasks = [⟨"a", "x", 1⟩] ∧
      (∀ room, TeardownEvent.leaveRoom room ∉ (logout logoutSample).2) ∧
      ¬ teardownCompleteClaim logoutSample (logout logoutSample) := by
  refine ⟨rfl, fun room hmem => ?_, fun h => ?_⟩
  · simp [logout, logoutSample] at hmem
  · have htasks := h.2.2.2.2
    simp [logout, logoutSample] at htasks

/-- C7 (amended).  After the teardown sequence completes (and it was
not already running): the channel is disconnected, the persisted
checkpoint is cleared, all pending session timers are cancelled, and
the auth state is reset — but the per-identity topic is never
explicitly left (the deferred callback runs only after
`resetWebSocketClient` has disconnected the socket, so
`leaveUserRoom`'s connected-guard makes it a no-op), and the local
task collection is NOT cleared: it is left exactly as it was. -/
theorem logout_teardown (st : ClientState) (h : st.isLoggingOut = false) :
    (∀ room, TeardownEvent.leaveRoom room ∉ (logout st).2) ∧
      (logout st).1.wsConnected = false ∧
      (logout st).1.lastSyncTimestamp = none ∧
      (logout st).1.timers = ⟨none, none, none⟩ ∧
      (logout st).1.user = none ∧
      (logout st).1.isAuthenticated = false ∧
      (logout st).1.tasks = st.tasks := by
  refine ⟨fun room hmem => ?_, ?_, ?_, ?_, ?_, ?_, ?_⟩
  · cases hu : st.user <;> simp [logout, h, hu] at hmem
  all_goals simp [logout, h]

/-- C7 (witness): at `logoutSample` no user-room leave is emitted, and
the collection survives with its one task. -/
theorem logout_teardown_witness :
    TeardownEvent.leaveRoom ("user:" ++ "u1") ∉ (logout logoutSample).2 ∧
      (logout logoutSample).1.tasks = logoutSample.tasks :=
  ⟨(logout_teardown logoutSample rfl).1 ("user:" ++ "u1"),
    (logout_teardown logoutSample rfl).2.2.2.2.2.2⟩

end ToDoFront
